import Mathlib

/-!
Verification of the register-mirrored I2C GPIO expander driver
(`hw-i2c/i2c_gpio_expander.py`, class `I2C_GPIO_Expander`).

The Python class is embedded shallowly:
* a `Device` holds the immutable identity (bus address, port count, the four
  register-role addresses assigned by the concrete variant) and the mutable
  shadow `reg_data`, a Python dict modelled as an insertion-ordered
  association list;
* the bus transport (`I2C_Driver` methods bound as `_i2c_write_method` /
  `_i2c_read_method`) is modelled as an oracle `Bus` deciding which write
  transactions succeed and what each read transaction returns (`none`
  standing for the transport raising `IOError`);
* every public operation returns an `OpResult`: the list of bus transactions
  attempted (in order, failed attempts included — this is what a transport
  mock would count), the list of advisory warnings printed (recorded by pin
  number), the device state after the call (a Python exception propagates but
  leaves the object in place), and the outcome — `Except.error` standing for
  a raised exception, tagged with the kind of exception raised.

Pins are carried as `Int` because Python ints are signed and
`_validate_pins` explicitly tests `pin < 0`.  Register values are `Nat`
(register words are non-negative and all operations preserve that).
-/

namespace GpioExpander

/-- Kinds of exception the driver can raise.  The Python source raises plain
`Exception` for pin-range and direction errors, lets the transport's `IOError`
propagate for bus failures (the spec's `BusTransactionError` kind), and can
raise `KeyError` (missing dict key) or `TypeError` (bad unpacking) from the
interpreter itself. -/
inductive Err where
  | pinRange
  | busTransaction
  | invalidDirection
  | keyError
  | typeError
deriving DecidableEq

/-- One bus transaction attempted through the transport. -/
inductive Txn where
  | write (dev reg data : Nat)
  | read (dev reg : Nat)
deriving DecidableEq

/-- Device instance: identity fixed at construction plus the mutable register
shadow `reg_data` (`{reg: state}` in `__init__`). -/
structure Device where
  addr : Nat
  ports : Nat
  input_reg_addr : Nat
  output_reg_addr : Nat
  polarity_reg_addr : Nat
  config_reg_addr : Nat
  reg_data : List (Nat × Nat)
deriving DecidableEq

/-- Bus transport oracle: which writes succeed, and what a read returns
(`none` = the transport raises `IOError`). -/
structure Bus where
  writeOk : Nat → Nat → Nat → Bool
  readResult : Nat → Nat → Option Nat

/-- Result of one driver call: transactions attempted, warnings printed
(by pin), the device state after the call, and outcome. -/
structure OpResult (α : Type) where
  txns : List Txn
  warns : List Int
  dev : Device
  out : Except Err α

/-- Python dict lookup `d[key]` on the shadow (insertion-ordered assoc list). -/
def dictGet : List (Nat × Nat) → Nat → Option Nat
  | [], _ => none
  | (k, v) :: rest, key => if k = key then some v else dictGet rest key

/-- Python dict assignment `d[key] = v`: overwrite in place, else append. -/
def dictSet : List (Nat × Nat) → Nat → Nat → List (Nat × Nat)
  | [], key, v => [(key, v)]
  | (k, w) :: rest, key, v =>
      if k = key then (k, v) :: rest else (k, w) :: dictSet rest key v

/-- Lookup for the `{pin: state}` result dict built by `read`. -/
def dictGetB : List (Int × Bool) → Int → Option Bool
  | [], _ => none
  | (k, v) :: rest, key => if k = key then some v else dictGetB rest key

/-- Assignment for the `{pin: state}` result dict built by `read`. -/
def dictSetB : List (Int × Bool) → Int → Bool → List (Int × Bool)
  | [], key, v => [(key, v)]
  | (k, w) :: rest, key, v =>
      if k = key then (k, v) :: rest else (k, w) :: dictSetB rest key v

/-- The per-pin test of `_validate_pins`: `(pin < 0) or (pin > self.ports - 1)`. -/
def invalidPin (ports : Nat) (pin : Int) : Bool :=
  decide (pin < 0) || decide (pin > (ports : Int) - 1)

/-- Python `_validate_pins`: raises on the first out-of-range pin; pure otherwise.
(The source builds the error message from a nonexistent attribute
`self.port_count`, so the interpreter actually raises `AttributeError` while
formatting it; either way an exception of the pin-range family propagates
before any bus activity, modelled as `Err.pinRange`.) -/
def validate_pins (ports : Nat) (pins : List Int) : Bool :=
  pins.any (invalidPin ports)

/-- The source's bit test `(1 << pin) & reg == (1 << pin)` (from `_is_input`
and `read`). -/
def bitTest (reg : Nat) (k : Nat) : Bool :=
  decide ((1 <<< k) &&& reg = (1 <<< k))

/-- Python `_is_input`: look up the cached CONFIG register and test the pin's bit.
A missing CONFIG key in the shadow dict would raise `KeyError`. -/
def is_input (dev : Device) (pin : Int) : Except Err Bool :=
  match dictGet dev.reg_data dev.config_reg_addr with
  | none => .error .keyError
  | some c => .ok (bitTest c pin.toNat)

/-- Python `new_cfg |= 1 << pin` (pin already validated non-negative). -/
def setBit (v : Nat) (pin : Int) : Nat := v ||| (1 <<< pin.toNat)

/-- Python `new_cfg &= ~(1 << pin)`: on a non-negative Python int this clears bit
`pin` and leaves every other bit alone.  Written as set-then-toggle (`lor`
followed by `xor` of the same one-bit mask, which computes exactly that)
because those primitives evaluate on literals. -/
def clrBit (v : Nat) (pin : Int) : Nat :=
  (v ||| (1 <<< pin.toNat)) ^^^ (1 <<< pin.toNat)

/-- Python `_i2c_write`: attempt the transport write; on success also store the value
in the shadow (`self.reg_data[reg_addr] = data`).  When the transport raises
`IOError` the shadow assignment is never executed, so `reg_data` is untouched. -/
def i2c_write (bus : Bus) (dev : Device) (reg_addr data : Nat) : OpResult Unit :=
  if bus.writeOk dev.addr reg_addr data then
    ⟨[.write dev.addr reg_addr data], [], { dev with reg_data := dictSet dev.reg_data reg_addr data }, .ok ()⟩
  else
    ⟨[.write dev.addr reg_addr data], [], dev, .error .busTransaction⟩

/-- Python `_i2c_read`: attempt the transport read; on success store the value in the
shadow and return it; on `IOError` the shadow is untouched. -/
def i2c_read (bus : Bus) (dev : Device) (reg_addr : Nat) : OpResult Nat :=
  match bus.readResult dev.addr reg_addr with
  | some data =>
      ⟨[.read dev.addr reg_addr], [], { dev with reg_data := dictSet dev.reg_data reg_addr data }, .ok data⟩
  | none => ⟨[.read dev.addr reg_addr], [], dev, .error .busTransaction⟩

/-- The `for pin in pins:` loop shared verbatim by `enable`, `disable`,
`invert` and `uninvert`: apply the bit update to the accumulator, then — in
all four methods alike — `if self._is_input(pin): print(...)`.  Returns the
warnings printed so far and either the final register value or the exception
raised mid-loop. -/
def rmwLoop (dev : Device) (step : Nat → Int → Nat) :
    List Int → Nat → List Int → List Int × Except Err Nat
  | [], v, ws => (ws, .ok v)
  | p :: ps, v, ws =>
      match is_input dev p with
      | .error e => (ws, .error e)
      | .ok b => rmwLoop dev step ps (step v p) (if b then ws ++ [p] else ws)

/-- Common shape of `enable` / `disable` / `invert` / `uninvert`: validate the
pins, read the cached register value, run the update/warning loop, then issue
one `_i2c_write` of the full register. -/
def rmwOp (bus : Bus) (dev : Device) (reg : Nat) (step : Nat → Int → Nat)
    (pins : List Int) : OpResult Unit :=
  if validate_pins dev.ports pins then ⟨[], [], dev, .error .pinRange⟩
  else
    match dictGet dev.reg_data reg with
    | none => ⟨[], [], dev, .error .keyError⟩
    | some v0 =>
        match rmwLoop dev step pins v0 [] with
        | (ws, .error e) => ⟨[], ws, dev, .error e⟩
        | (ws, .ok v1) =>
            let w := i2c_write bus dev reg v1
            ⟨w.txns, ws, w.dev, w.out⟩

/-- Method `enable`: set the pins' bits in the cached OUTPUT register and write it. -/
def enable (bus : Bus) (dev : Device) (pins : List Int) : OpResult Unit :=
  rmwOp bus dev dev.output_reg_addr setBit pins

/-- Method `disable`: clear the pins' bits in the cached OUTPUT register and write it. -/
def disable (bus : Bus) (dev : Device) (pins : List Int) : OpResult Unit :=
  rmwOp bus dev dev.output_reg_addr clrBit pins

/-- Method `invert`: set the pins' bits in the cached POLARITY register and write it. -/
def invert (bus : Bus) (dev : Device) (pins : List Int) : OpResult Unit :=
  rmwOp bus dev dev.polarity_reg_addr setBit pins

/-- Method `uninvert`: clear the pins' bits in the cached POLARITY register and write it. -/
def uninvert (bus : Bus) (dev : Device) (pins : List Int) : OpResult Unit :=
  rmwOp bus dev dev.polarity_reg_addr clrBit pins

/-- Method `configure`: validate pins, read the cached CONFIG value, set (`"input"`)
or clear (`"output"`) the pins' bits — raising for any other `io` string
before any bus activity — then issue one `_i2c_write` of the full register. -/
def configure (bus : Bus) (dev : Device) (io : String) (pins : List Int) :
    OpResult Unit :=
  if validate_pins dev.ports pins then ⟨[], [], dev, .error .pinRange⟩
  else
    match dictGet dev.reg_data dev.config_reg_addr with
    | none => ⟨[], [], dev, .error .keyError⟩
    | some v0 =>
        if io = "input" then
          let w := i2c_write bus dev dev.config_reg_addr (pins.foldl setBit v0)
          ⟨w.txns, [], w.dev, w.out⟩
        else if io = "output" then
          let w := i2c_write bus dev dev.config_reg_addr (pins.foldl clrBit v0)
          ⟨w.txns, [], w.dev, w.out⟩
        else ⟨[], [], dev, .error .invalidDirection⟩

/-- Method `reconfigure`: the source runs `for reg, cfg in self.reg_data:`.  Iterating
a Python dict yields its keys — here integers — so the tuple unpacking raises
`TypeError` on the first key before any `_i2c_write` is reached; only an empty
shadow dict completes the (empty) loop. -/
def reconfigure (_bus : Bus) (dev : Device) : OpResult Unit :=
  match dev.reg_data with
  | [] => ⟨[], [], dev, .ok ()⟩
  | _ :: _ => ⟨[], [], dev, .error .typeError⟩

/-- The loop of `read`: `result[pin] = (1 << pin) & data == (1 << pin)`, then
warn `if not self._is_input(pin)`. -/
def readLoop (dev : Device) (data : Nat) :
    List Int → List (Int × Bool) → List Int → List Int × Except Err (List (Int × Bool))
  | [], res, ws => (ws, .ok res)
  | p :: ps, res, ws =>
      match is_input dev p with
      | .error e => (ws, .error e)
      | .ok b =>
          readLoop dev data ps (dictSetB res p (bitTest data p.toNat))
            (if b then ws else ws ++ [p])

/-- Method `read`: validate pins, `_i2c_read` the INPUT register (always from the
bus, updating the shadow), then decode the requested bits into the
`{pin: state}` result dict, warning for pins not configured as inputs. -/
def read (bus : Bus) (dev : Device) (pins : List Int) :
    OpResult (List (Int × Bool)) :=
  if validate_pins dev.ports pins then ⟨[], [], dev, .error .pinRange⟩
  else
    let r := i2c_read bus dev dev.input_reg_addr
    match r.out with
    | .error e => ⟨r.txns, [], r.dev, .error e⟩
    | .ok data =>
        match readLoop r.dev data pins [] [] with
        | (ws, .error e) => ⟨r.txns, ws, r.dev, .error e⟩
        | (ws, .ok res) => ⟨r.txns, ws, r.dev, .ok res⟩

/-- Python `self.all_pins = [*range(ports)]`. -/
def all_pins (dev : Device) : List Int := (List.range dev.ports).map Int.ofNat

/-- Method `enable_all`: `self.enable(*self.all_pins)`. -/
def enable_all (bus : Bus) (dev : Device) : OpResult Unit :=
  enable bus dev (all_pins dev)

/-- Method `disable_all`: `self.disable(*self.all_pins)`. -/
def disable_all (bus : Bus) (dev : Device) : OpResult Unit :=
  disable bus dev (all_pins dev)

/-- Method `invert_all`: `self.invert(*self.all_pins)`. -/
def invert_all (bus : Bus) (dev : Device) : OpResult Unit :=
  invert bus dev (all_pins dev)

/-- Method `uninvert_all`: `self.uninvert(*self.all_pins)`. -/
def uninvert_all (bus : Bus) (dev : Device) : OpResult Unit :=
  uninvert bus dev (all_pins dev)

/-- Method `read_all`: `self.read(*self.all_pins)` — the call's value is discarded
and the method falls off its end, returning Python's `None` (modelled as
`Unit`): the decoded mapping is not returned to the caller. -/
def read_all (bus : Bus) (dev : Device) : OpResult Unit :=
  let r := read bus dev (all_pins dev)
  ⟨r.txns, r.warns, r.dev, r.out.map fun _ => ()⟩

/-- An 8-pin PCA9538A-style device at its register defaults: OUTPUT `0xFF`,
POLARITY `0x00`, CONFIG `0xFF` (all pins inputs). -/
def pcaDevice : Device where
  addr := 0x70
  ports := 8
  input_reg_addr := 0
  output_reg_addr := 1
  polarity_reg_addr := 2
  config_reg_addr := 3
  reg_data := [(1, 0xFF), (2, 0x00), (3, 0xFF)]

/-- A transport on which every transaction succeeds and every read returns `w`. -/
def okBus (w : Nat) : Bus where
  writeOk := fun _ _ _ => true
  readResult := fun _ _ => some w

/-- A transport on which every transaction raises `IOError`. -/
def failBus : Bus where
  writeOk := fun _ _ _ => false
  readResult := fun _ _ => none

/-- An 8-pin device whose CONFIG shadow is `0x00`: every pin cached as OUTPUT. -/
def outDevice : Device where
  addr := 0x70
  ports := 8
  input_reg_addr := 0
  output_reg_addr := 1
  polarity_reg_addr := 2
  config_reg_addr := 3
  reg_data := [(1, 0xFF), (2, 0x00), (3, 0x00)]

/-- A 16-pin MAX7318-style device at its register defaults. -/
def maxDevice : Device where
  addr := 0x70
  ports := 16
  input_reg_addr := 0x00
  output_reg_addr := 0x02
  polarity_reg_addr := 0x04
  config_reg_addr := 0x06
  reg_data := [(0x00, 0x0000), (0x02, 0xFFFF), (0x04, 0x0000), (0x06, 0xFFFF)]

/-! ### Helper lemmas -/

theorem bitTest_eq_testBit (v k : Nat) : bitTest v k = v.testBit k := by
  have hpow : (1 <<< k) = 2 ^ k := by rw [Nat.shiftLeft_eq, one_mul]
  unfold bitTest
  rw [hpow]
  cases h : v.testBit k
  · simp only [decide_eq_false_iff_not]
    intro heq
    have h2 := congrArg (fun x => x.testBit k) heq
    simp [Nat.testBit_land, Nat.testBit_two_pow, h] at h2
  · have h2 : (2 ^ k &&& v) = 2 ^ k := by
      apply Nat.eq_of_testBit_eq
      intro j
      by_cases hj : k = j
      · subst hj; simp [Nat.testBit_land, Nat.testBit_two_pow, h]
      · simp [Nat.testBit_land, Nat.testBit_two_pow, hj]
    simp [h2]

theorem testBit_setBit (v : Nat) (p : Int) (k : Nat) :
    (setBit v p).testBit k = (v.testBit k || decide (p.toNat = k)) := by
  have hpow : (1 <<< p.toNat) = 2 ^ p.toNat := by rw [Nat.shiftLeft_eq, one_mul]
  rw [setBit, hpow, Nat.testBit_lor, Nat.testBit_two_pow]

theorem testBit_clrBit (v : Nat) (p : Int) (k : Nat) :
    (clrBit v p).testBit k = (v.testBit k && !decide (p.toNat = k)) := by
  have hpow : (1 <<< p.toNat) = 2 ^ p.toNat := by rw [Nat.shiftLeft_eq, one_mul]
  rw [clrBit, hpow, Nat.testBit_xor, Nat.testBit_lor, Nat.testBit_two_pow]
  cases h : decide (p.toNat = k) <;> cases v.testBit k <;> simp

/-- Sanity check: `clrBit` computes the bitwise difference of `v` and the
one-bit mask, the value of Python's `v & ~(1 << pin)`. -/
theorem clrBit_eq_ldiff (v : Nat) (p : Int) :
    clrBit v p = Nat.ldiff v (1 <<< p.toNat) := by
  have hpow : (1 <<< p.toNat) = 2 ^ p.toNat := by rw [Nat.shiftLeft_eq, one_mul]
  apply Nat.eq_of_testBit_eq
  intro k
  rw [testBit_clrBit, hpow, Nat.testBit_ldiff, Nat.testBit_two_pow]

theorem testBit_foldl_setBit (pins : List Int) (v : Nat) (k : Nat)
    (hp : ∀ p ∈ pins, 0 ≤ p) :
    ((pins.foldl setBit v).testBit k) =
      (v.testBit k || decide ((k : Int) ∈ pins)) := by
  induction pins generalizing v with
  | nil => simp
  | cons p ps ih =>
    have hp0 : 0 ≤ p := hp p (List.mem_cons_self p ps)
    rw [List.foldl_cons, ih _ (fun q hq => hp q (List.mem_cons_of_mem p hq)),
      testBit_setBit]
    by_cases h2 : (k : Int) = p
    · have h3 : p.toNat = k := by omega
      simp [h3, h2, List.mem_cons]
    · have h3 : ¬(p.toNat = k) := by omega
      simp [h3, h2, List.mem_cons]

theorem testBit_foldl_clrBit (pins : List Int) (v : Nat) (k : Nat)
    (hp : ∀ p ∈ pins, 0 ≤ p) :
    ((pins.foldl clrBit v).testBit k) =
      (v.testBit k && !decide ((k : Int) ∈ pins)) := by
  induction pins generalizing v with
  | nil => simp
  | cons p ps ih =>
    have hp0 : 0 ≤ p := hp p (List.mem_cons_self p ps)
    rw [List.foldl_cons, ih _ (fun q hq => hp q (List.mem_cons_of_mem p hq)),
      testBit_clrBit]
    by_cases h2 : (k : Int) = p
    · have h3 : p.toNat = k := by omega
      simp [h3, h2, List.mem_cons]
    · have h3 : ¬(p.toNat = k) := by omega
      simp [h3, h2, List.mem_cons]

theorem dictGet_dictSet_self (d : List (Nat × Nat)) (k v : Nat) :
    dictGet (dictSet d k v) k = some v := by
  induction d with
  | nil => simp [dictGet, dictSet]
  | cons kv rest ih =>
    obtain ⟨k0, v0⟩ := kv
    by_cases h : k0 = k <;> simp [dictGet, dictSet, h, ih]

theorem dictGet_dictSet_ne (d : List (Nat × Nat)) (k v k' : Nat) (h : k' ≠ k) :
    dictGet (dictSet d k v) k' = dictGet d k' := by
  have hne : k ≠ k' := Ne.symm h
  induction d with
  | nil => simp [dictGet, dictSet, hne]
  | cons kv rest ih =>
    obtain ⟨k0, v0⟩ := kv
    by_cases h0 : k0 = k
    · subst h0
      simp [dictGet, dictSet, hne]
    · simp [dictGet, dictSet, h0, ih]

theorem dictSet_same (d : List (Nat × Nat)) (k v : Nat)
    (h : dictGet d k = some v) : dictSet d k v = d := by
  induction d with
  | nil => simp [dictGet] at h
  | cons kv rest ih =>
    obtain ⟨k0, v0⟩ := kv
    by_cases h0 : k0 = k
    · subst h0
      simp [dictGet] at h
      simp [dictSet, h]
    · simp [dictGet, h0] at h
      simp [dictSet, h0, ih h]

theorem dictGetB_dictSetB (res : List (Int × Bool)) (p : Int) (b : Bool) (q : Int) :
    dictGetB (dictSetB res p b) q = if p = q then some b else dictGetB res q := by
  induction res with
  | nil =>
    by_cases h : p = q <;> simp [dictGetB, dictSetB, h]
  | cons kv rest ih =>
    obtain ⟨k0, v0⟩ := kv
    by_cases h0 : k0 = p
    · subst h0
      by_cases h1 : k0 = q <;> simp [dictGetB, dictSetB, h1]
    · have h0' : p ≠ k0 := Ne.symm h0
      by_cases h1 : k0 = q
      · subst h1
        simp [dictGetB, dictSetB, h0, h0']
      · simp [dictGetB, dictSetB, h0, h1, ih]

theorem dictGetB_fold (f : Int → Bool) (pins : List Int)
    (res : List (Int × Bool)) (q : Int) :
    dictGetB (pins.foldl (fun r p => dictSetB r p (f p)) res) q =
      if q ∈ pins then some (f q) else dictGetB res q := by
  induction pins generalizing res with
  | nil => simp
  | cons p ps ih =>
    rw [List.foldl_cons, ih]
    by_cases hq : q ∈ ps
    · simp [hq, List.mem_cons]
    · by_cases hqp : q = p
      · subst hqp
        simp [hq, dictGetB_dictSetB, List.mem_cons]
      · have hqp' : p ≠ q := Ne.symm hqp
        simp [hq, hqp, hqp', dictGetB_dictSetB, List.mem_cons]

theorem validate_pins_false (ports : Nat) (pins : List Int)
    (h : ∀ p ∈ pins, 0 ≤ p ∧ p < (ports : Int)) :
    validate_pins ports pins = false := by
  unfold validate_pins
  rw [List.any_eq_false]
  intro p hp
  have := h p hp
  simp [invalidPin]
  omega

theorem validate_pins_true (ports : Nat) (pins : List Int)
    (h : ∃ p ∈ pins, p < 0 ∨ (ports : Int) ≤ p) :
    validate_pins ports pins = true := by
  obtain ⟨p, hp, hlt⟩ := h
  unfold validate_pins
  rw [List.any_eq_true]
  refine ⟨p, hp, ?_⟩
  simp [invalidPin]
  omega

theorem rmwLoop_ok (dev : Device) (step : Nat → Int → Nat) (c : Nat)
    (hc : dictGet dev.reg_data dev.config_reg_addr = some c) :
    ∀ (pins : List Int) (v : Nat) (ws : List Int),
    rmwLoop dev step pins v ws =
      (ws ++ pins.filter (fun p => bitTest c p.toNat), .ok (pins.foldl step v)) := by
  intro pins
  induction pins with
  | nil => intro v ws; simp [rmwLoop]
  | cons p ps ih =>
    intro v ws
    rw [rmwLoop]
    simp only [is_input, hc]
    cases hb : bitTest c p.toNat
    · simp [ih, List.filter_cons, hb]
    · simp [ih, List.filter_cons, hb]

theorem readLoop_ok (dev : Device) (data c : Nat)
    (hc : dictGet dev.reg_data dev.config_reg_addr = some c) :
    ∀ (pins : List Int) (res : List (Int × Bool)) (ws : List Int),
    readLoop dev data pins res ws =
      (ws ++ pins.filter (fun p => !bitTest c p.toNat),
       .ok (pins.foldl (fun r p => dictSetB r p (bitTest data p.toNat)) res)) := by
  intro pins
  induction pins with
  | nil => intro res ws; simp [readLoop]
  | cons p ps ih =>
    intro res ws
    rw [readLoop]
    simp only [is_input, hc]
    cases hb : bitTest c p.toNat
    · simp [ih, List.filter_cons, hb]
    · simp [ih, List.filter_cons, hb]

/-- Successful run of the shared read-modify-write shape: one bus write of the
folded register value, warnings for the `_is_input` pins, shadow updated. -/
theorem rmwOp_ok_state (bus : Bus) (dev : Device) (reg : Nat)
    (step : Nat → Int → Nat) (pins : List Int) (c v0 : Nat)
    (hv : validate_pins dev.ports pins = false)
    (hc : dictGet dev.reg_data dev.config_reg_addr = some c)
    (h0 : dictGet dev.reg_data reg = some v0)
    (hb : bus.writeOk dev.addr reg (pins.foldl step v0) = true) :
    rmwOp bus dev reg step pins =
      ⟨[.write dev.addr reg (pins.foldl step v0)],
       pins.filter (fun p => bitTest c p.toNat),
       { dev with reg_data := dictSet dev.reg_data reg (pins.foldl step v0) },
       .ok ()⟩ := by
  simp [rmwOp, hv, h0, rmwLoop_ok dev step c hc, i2c_write, hb]

/-! ### Claim theorems -/

/-- C1: if the bus write raised by the transport fails while executing
`enable`, the shadow register mapping is left exactly as it was before the
call (the write is never provisionally applied), and the error surfaces to
the caller as the bus-transaction error kind after exactly one (unretried)
write attempt. -/
theorem C1_enable_bus_write_failure (bus : Bus) (dev : Device)
    (pins : List Int) (c vo : Nat)
    (hv : validate_pins dev.ports pins = false)
    (hc : dictGet dev.reg_data dev.config_reg_addr = some c)
    (ho : dictGet dev.reg_data dev.output_reg_addr = some vo)
    (hb : ∀ x, bus.writeOk dev.addr dev.output_reg_addr x = false) :
    (enable bus dev pins).dev = dev ∧
    (enable bus dev pins).out = .error .busTransaction ∧
    (enable bus dev pins).txns =
      [.write dev.addr dev.output_reg_addr (pins.foldl setBit vo)] := by
  simp [enable, rmwOp, hv, ho, rmwLoop_ok dev setBit c hc, i2c_write, hb]

/-- Witness for C1: a failing transport on `enable([3])` at the PCA9538A
defaults leaves the whole shadow untouched and raises the bus error after a
single write attempt. -/
theorem C1_witness :
    (enable failBus pcaDevice [3]).dev = pcaDevice ∧
    (enable failBus pcaDevice [3]).out = .error .busTransaction ∧
    (enable failBus pcaDevice [3]).txns =
      [.write pcaDevice.addr pcaDevice.output_reg_addr ([(3 : Int)].foldl setBit 0xFF)] :=
  C1_enable_bus_write_failure failBus pcaDevice [3] 0xFF 0xFF
    (by decide) (by decide) (by decide) (fun _ => rfl)

/-- C3: any operation taking pin indices that is handed a pin outside
`[0, port_count)` raises the pin-range error before issuing any bus
transaction, leaving the shadow state (and hence the device) untouched. -/
theorem C3_pin_range_error (bus : Bus) (dev : Device) (io : String)
    (pins : List Int)
    (h : ∃ p ∈ pins, p < 0 ∨ (dev.ports : Int) ≤ p) :
    configure bus dev io pins = ⟨[], [], dev, .error .pinRange⟩ ∧
    enable bus dev pins = ⟨[], [], dev, .error .pinRange⟩ ∧
    disable bus dev pins = ⟨[], [], dev, .error .pinRange⟩ ∧
    invert bus dev pins = ⟨[], [], dev, .error .pinRange⟩ ∧
    uninvert bus dev pins = ⟨[], [], dev, .error .pinRange⟩ ∧
    read bus dev pins = ⟨[], [], dev, .error .pinRange⟩ := by
  have hv : validate_pins dev.ports pins = true := by
    apply validate_pins_true
    obtain ⟨p, hp, hlt⟩ := h
    exact ⟨p, hp, by omega⟩
  refine ⟨?_, ?_, ?_, ?_, ?_, ?_⟩ <;>
    simp [configure, enable, disable, invert, uninvert, read, rmwOp, hv]

/-- Witness for C3: `configure("input", 99)` and the five other pin-taking
operations on an 8-pin device fail with the pin-range error and issue zero
bus transactions. -/
theorem C3_witness :
    configure (okBus 0) pcaDevice ("input") [99] = ⟨[], [], pcaDevice, .error .pinRange⟩ ∧
    enable (okBus 0) pcaDevice [99] = ⟨[], [], pcaDevice, .error .pinRange⟩ ∧
    disable (okBus 0) pcaDevice [99] = ⟨[], [], pcaDevice, .error .pinRange⟩ ∧
    invert (okBus 0) pcaDevice [99] = ⟨[], [], pcaDevice, .error .pinRange⟩ ∧
    uninvert (okBus 0) pcaDevice [99] = ⟨[], [], pcaDevice, .error .pinRange⟩ ∧
    read (okBus 0) pcaDevice [99] = ⟨[], [], pcaDevice, .error .pinRange⟩ :=
  C3_pin_range_error (okBus 0) pcaDevice ("input") [99]
    ⟨99, by decide, by decide⟩

/-- C9: `configure` with a direction string other than `"input"` / `"output"`
raises before issuing any bus transaction, leaving the CONFIG shadow (and
the device) unchanged. -/
theorem C9_configure_bad_direction (bus : Bus) (dev : Device) (io : String)
    (pins : List Int) (c : Nat)
    (hv : validate_pins dev.ports pins = false)
    (hc : dictGet dev.reg_data dev.config_reg_addr = some c)
    (h1 : io ≠ "input") (h2 : io ≠ "output") :
    configure bus dev io pins = ⟨[], [], dev, .error .invalidDirection⟩ := by
  simp [configure, hv, hc, h1, h2]

/-- Witness for C9: `configure("both", 0, 1)` on the PCA9538A defaults raises
the invalid-direction error with zero bus transactions and no state change. -/
theorem C9_witness :
    configure (okBus 0) pcaDevice ("both") [0, 1] =
      ⟨[], [], pcaDevice, .error .invalidDirection⟩ :=
  C9_configure_bad_direction (okBus 0) pcaDevice ("both") [0, 1] 0xFF
    (by decide) (by decide) (by decide) (by decide)

/-- C10: `enable` / `disable` / `invert` / `uninvert` with an empty pin
collection succeed, still issue exactly one bus write, and write back the
register's current cached shadow value unchanged, so the shadow (and the
whole device state) is identical before and after the call. -/
theorem C10_empty_pin_collection (bus : Bus) (dev : Device) (vo vp : Nat)
    (ho : dictGet dev.reg_data dev.output_reg_addr = some vo)
    (hp : dictGet dev.reg_data dev.polarity_reg_addr = some vp)
    (hbo : bus.writeOk dev.addr dev.output_reg_addr vo = true)
    (hbp : bus.writeOk dev.addr dev.polarity_reg_addr vp = true) :
    enable bus dev [] = ⟨[.write dev.addr dev.output_reg_addr vo], [], dev, .ok ()⟩ ∧
    disable bus dev [] = ⟨[.write dev.addr dev.output_reg_addr vo], [], dev, .ok ()⟩ ∧
    invert bus dev [] = ⟨[.write dev.addr dev.polarity_reg_addr vp], [], dev, .ok ()⟩ ∧
    uninvert bus dev [] = ⟨[.write dev.addr dev.polarity_reg_addr vp], [], dev, .ok ()⟩ := by
  have hdo : dictSet dev.reg_data dev.output_reg_addr vo = dev.reg_data :=
    dictSet_same _ _ _ ho
  have hdp : dictSet dev.reg_data dev.polarity_reg_addr vp = dev.reg_data :=
    dictSet_same _ _ _ hp
  refine ⟨?_, ?_, ?_, ?_⟩ <;>
    simp [enable, disable, invert, uninvert, rmwOp, validate_pins, rmwLoop,
      ho, hp, i2c_write, hbo, hbp, hdo, hdp]

/-- C2: a successful `configure(D, *P)` leaves the cached CONFIG shadow equal
to the prior cached value with exactly the bits at positions in P set (D =
`"input"`) or cleared (D = `"output"`), every other bit unchanged. -/
theorem C2_configure_config_bits (bus : Bus) (dev : Device) (io : String)
    (pins : List Int) (c : Nat)
    (hio : io = "input" ∨ io = "output")
    (hp : ∀ p ∈ pins, 0 ≤ p ∧ p < (dev.ports : Int))
    (hc : dictGet dev.reg_data dev.config_reg_addr = some c)
    (hb : ∀ x, bus.writeOk dev.addr dev.config_reg_addr x = true) :
    (configure bus dev io pins).out = .ok () ∧
    ∃ c', dictGet (configure bus dev io pins).dev.reg_data dev.config_reg_addr
        = some c' ∧
      ∀ k : Nat,
        ((k : Int) ∈ pins → c'.testBit k = decide (io = "input")) ∧
        ((k : Int) ∉ pins → c'.testBit k = c.testBit k) := by
  have hv : validate_pins dev.ports pins = false := validate_pins_false _ _ hp
  have hp0 : ∀ p ∈ pins, 0 ≤ p := fun p hh => (hp p hh).1
  rcases hio with hio | hio <;> subst hio
  · refine ⟨by simp [configure, hv, hc, i2c_write, hb],
      pins.foldl setBit c,
      by simp [configure, hv, hc, i2c_write, hb, dictGet_dictSet_self], ?_⟩
    intro k
    constructor
    · intro hk
      simp [testBit_foldl_setBit pins c k hp0, hk]
    · intro hk
      simp [testBit_foldl_setBit pins c k hp0, hk]
  · have hneq : ("output" : String) ≠ "input" := by decide
    refine ⟨by simp [configure, hv, hc, i2c_write, hb, hneq],
      pins.foldl clrBit c,
      by simp [configure, hv, hc, i2c_write, hb, hneq, dictGet_dictSet_self], ?_⟩
    intro k
    constructor
    · intro hk
      simp [testBit_foldl_clrBit pins c k hp0, hk, hneq]
    · intro hk
      simp [testBit_foldl_clrBit pins c k hp0, hk]

/-- Witness for C2: `configure("output", 0, 1)` on the PCA9538A defaults
succeeds and has its cached CONFIG bits 0 and 1 cleared, others unchanged. -/
theorem C2_witness :
    (configure (okBus 0) pcaDevice ("output") [0, 1]).out = .ok () ∧
    ∃ c', dictGet (configure (okBus 0) pcaDevice ("output") [0, 1]).dev.reg_data
        pcaDevice.config_reg_addr = some c' ∧
      ∀ k : Nat,
        ((k : Int) ∈ [(0 : Int), 1] → c'.testBit k = decide ("output" = "input")) ∧
        ((k : Int) ∉ [(0 : Int), 1] → c'.testBit k = (0xFF : Nat).testBit k) :=
  C2_configure_config_bits (okBus 0) pcaDevice ("output") [0, 1] 0xFF
    (Or.inr rfl) (by decide) (by decide) (fun _ => rfl)

/-- C4: `read(*P)` issues exactly one bus read, of the INPUT register, stores
the freshly read word into the shadow, and returns a mapping holding exactly
one boolean entry per requested pin — the pin's bit in the read word — and
nothing else; the characterisation is by membership in P, so it is
independent of the order the pins are requested in. -/
theorem C4_read_mapping (bus : Bus) (dev : Device) (pins : List Int)
    (c data : Nat)
    (hp : ∀ p ∈ pins, 0 ≤ p ∧ p < (dev.ports : Int))
    (hc : dictGet dev.reg_data dev.config_reg_addr = some c)
    (hne : dev.config_reg_addr ≠ dev.input_reg_addr)
    (hr : bus.readResult dev.addr dev.input_reg_addr = some data) :
    (read bus dev pins).txns = [.read dev.addr dev.input_reg_addr] ∧
    dictGet (read bus dev pins).dev.reg_data dev.input_reg_addr = some data ∧
    ∃ m, (read bus dev pins).out = .ok m ∧
      ∀ q : Int, dictGetB m q =
        if q ∈ pins then some (data.testBit q.toNat) else none := by
  have hv : validate_pins dev.ports pins = false := validate_pins_false _ _ hp
  have hcR : dictGet (dictSet dev.reg_data dev.input_reg_addr data)
      dev.config_reg_addr = some c := by
    rw [dictGet_dictSet_ne _ _ _ _ hne]; exact hc
  have hread : read bus dev pins =
      ⟨[.read dev.addr dev.input_reg_addr],
       pins.filter (fun p => !bitTest c p.toNat),
       { dev with reg_data := dictSet dev.reg_data dev.input_reg_addr data },
       .ok (pins.foldl (fun r p => dictSetB r p (bitTest data p.toNat)) [])⟩ := by
    simp [read, hv, i2c_read, hr,
      readLoop_ok { dev with reg_data := dictSet dev.reg_data dev.input_reg_addr data }
        data c hcR]
  refine ⟨by rw [hread], by rw [hread]; simp [dictGet_dictSet_self],
    pins.foldl (fun r p => dictSetB r p (bitTest data p.toNat)) [], by rw [hread], ?_⟩
  intro q
  rw [dictGetB_fold]
  by_cases hq : q ∈ pins <;> simp [hq, dictGetB, bitTest_eq_testBit]

/-- Witness for C4: a 16-pin device whose INPUT register reads
`0b0000010000100000`; `read(5, 10)` yields exactly `{5: True, 10: True}`. -/
theorem C4_witness :
    (read (okBus 0x420) maxDevice [5, 10]).txns =
      [.read maxDevice.addr maxDevice.input_reg_addr] ∧
    dictGet (read (okBus 0x420) maxDevice [5, 10]).dev.reg_data
      maxDevice.input_reg_addr = some 0x420 ∧
    ∃ m, (read (okBus 0x420) maxDevice [5, 10]).out = .ok m ∧
      ∀ q : Int, dictGetB m q =
        if q ∈ [(5 : Int), 10] then some ((0x420 : Nat).testBit q.toNat) else none :=
  C4_read_mapping (okBus 0x420) maxDevice [5, 10] 0xFFFF 0x420
    (by decide) (by decide) (by decide) rfl

/-- C5 claims the advisory warning fires iff the pin is cached as OUTPUT, but
the source's `invert`/`uninvert` test `if self._is_input(pin)` — the exact
opposite of their own message text ("... but it is not configured as an
input") and of `read`'s check: with CONFIG `0xFF` (pin 2 an INPUT) both warn,
and with CONFIG `0x00` (pin 2 an OUTPUT) neither warns; the operations
complete and issue their write either way. -/
theorem C5_invert_warning_condition_reversed :
    is_input pcaDevice 2 = .ok true ∧
    (invert (okBus 0) pcaDevice [2]).warns = [2] ∧
    (invert (okBus 0) pcaDevice [2]).out = .ok () ∧
    (invert (okBus 0) pcaDevice [2]).txns.length = 1 ∧
    (uninvert (okBus 0) pcaDevice [2]).warns = [2] ∧
    (uninvert (okBus 0) pcaDevice [2]).out = .ok () ∧
    is_input outDevice 2 = .ok false ∧
    (invert (okBus 0) outDevice [2]).warns = [] ∧
    (invert (okBus 0) outDevice [2]).out = .ok () ∧
    (uninvert (okBus 0) outDevice [2]).warns = [] ∧
    (uninvert (okBus 0) outDevice [2]).out = .ok () :=
  ⟨rfl, rfl, rfl, rfl, rfl, rfl, rfl, rfl, rfl, rfl, rfl⟩

/-- C6 claims `reconfigure()` re-applies OUTPUT, POLARITY and CONFIG via three
bus writes, but the source iterates the shadow dict itself
(`for reg, cfg in self.reg_data:`), so unpacking the integer register keys
raises `TypeError` before any write: zero transactions are issued. -/
theorem C6_reconfigure_raises_type_error :
    reconfigure (okBus 0) pcaDevice = ⟨[], [], pcaDevice, .error .typeError⟩ ∧
    reconfigure (okBus 0) maxDevice = ⟨[], [], maxDevice, .error .typeError⟩ :=
  ⟨rfl, rfl⟩

/-- C7 as stated is false on the code: with OUTPUT shadow `0xFF`, `enable(3)`
then `disable(3)` (no bus failures anywhere) leaves the OUTPUT shadow at
`0xF7`, not the pre-enable `0xFF` — `disable` clears the bit regardless of
its pre-enable value. -/
theorem C7_counterexample :
    dictGet pcaDevice.reg_data pcaDevice.output_reg_addr = some 0xFF ∧
    (enable (okBus 0) pcaDevice [3]).out = .ok () ∧
    (disable (okBus 0) (enable (okBus 0) pcaDevice [3]).dev [3]).out = .ok () ∧
    dictGet (disable (okBus 0) (enable (okBus 0) pcaDevice [3]).dev [3]).dev.reg_data
      pcaDevice.output_reg_addr = some 0xF7 ∧
    (0xF7 : Nat) ≠ 0xFF := by
  refine ⟨rfl, rfl, rfl, by decide, by decide⟩

/-- C7 amended: `enable(*P)` then `disable(*P)` with no bus failures leaves
the OUTPUT shadow equal to the pre-enable value with the bits of P cleared;
in particular it restores the pre-enable value exactly when every pin of P
was already at logic low in it. -/
theorem C7_enable_then_disable (bus : Bus) (dev : Device) (pins : List Int)
    (c vo : Nat)
    (hp : ∀ p ∈ pins, 0 ≤ p ∧ p < (dev.ports : Int))
    (hc : dictGet dev.reg_data dev.config_reg_addr = some c)
    (ho : dictGet dev.reg_data dev.output_reg_addr = some vo)
    (hne : dev.config_reg_addr ≠ dev.output_reg_addr)
    (hb : ∀ r x, bus.writeOk dev.addr r x = true) :
    ∃ v2, dictGet (disable bus (enable bus dev pins).dev pins).dev.reg_data
        dev.output_reg_addr = some v2 ∧
      (∀ k : Nat, v2.testBit k = (vo.testBit k && !decide ((k : Int) ∈ pins))) ∧
      (v2 = vo ↔ ∀ p ∈ pins, vo.testBit p.toNat = false) := by
  have hv : validate_pins dev.ports pins = false := validate_pins_false _ _ hp
  have hp0 : ∀ p ∈ pins, 0 ≤ p := fun p hh => (hp p hh).1
  have henable : enable bus dev pins =
      ⟨[.write dev.addr dev.output_reg_addr (pins.foldl setBit vo)],
       pins.filter (fun p => bitTest c p.toNat),
       { dev with reg_data :=
           dictSet dev.reg_data dev.output_reg_addr (pins.foldl setBit vo) },
       .ok ()⟩ :=
    rmwOp_ok_state bus dev dev.output_reg_addr setBit pins c vo hv hc ho (hb _ _)
  have hc1 : dictGet (dictSet dev.reg_data dev.output_reg_addr (pins.foldl setBit vo))
      dev.config_reg_addr = some c := by
    rw [dictGet_dictSet_ne _ _ _ _ hne]; exact hc
  have hdisable := rmwOp_ok_state bus
    { dev with reg_data := dictSet dev.reg_data dev.output_reg_addr (pins.foldl setBit vo) }
    dev.output_reg_addr clrBit pins c (pins.foldl setBit vo)
    hv hc1 (dictGet_dictSet_self _ _ _) (hb _ _)
  rw [henable]
  show ∃ v2, dictGet (disable bus
      { dev with reg_data := dictSet dev.reg_data dev.output_reg_addr (pins.foldl setBit vo) }
      pins).dev.reg_data dev.output_reg_addr = some v2 ∧ _
  rw [show (disable bus
      { dev with reg_data := dictSet dev.reg_data dev.output_reg_addr (pins.foldl setBit vo) }
      pins) = rmwOp bus
      { dev with reg_data := dictSet dev.reg_data dev.output_reg_addr (pins.foldl setBit vo) }
      dev.output_reg_addr clrBit pins from rfl, hdisable]
  refine ⟨pins.foldl clrBit (pins.foldl setBit vo), by simp [dictGet_dictSet_self], ?_, ?_⟩
  · intro k
    rw [testBit_foldl_clrBit _ _ _ hp0, testBit_foldl_setBit _ _ _ hp0]
    cases hm : decide ((k : Int) ∈ pins) <;> simp
  · constructor
    · intro he p hpmem
      have hk : (pins.foldl clrBit (pins.foldl setBit vo)).testBit p.toNat =
          ((pins.foldl setBit vo).testBit p.toNat && !decide ((p.toNat : Int) ∈ pins)) :=
        testBit_foldl_clrBit _ _ _ hp0
      have hcast : ((p.toNat : Nat) : Int) = p := by
        have := hp0 p hpmem
        omega
      rw [hcast] at hk
      rw [he] at hk
      simpa [hpmem] using hk
    · intro hall
      apply Nat.eq_of_testBit_eq
      intro k
      rw [testBit_foldl_clrBit _ _ _ hp0, testBit_foldl_setBit _ _ _ hp0]
      by_cases hm : (k : Int) ∈ pins
      · have hz : vo.testBit k = false := by
          have := hall _ hm
          simpa using this
        simp [hm, hz]
      · simp [hm]

/-- Witness for C7 (amended): on the PCA9538A defaults, `enable(3)` then
`disable(3)` leaves the OUTPUT shadow at the pre-enable value with bit 3
cleared, restoring it exactly when bit 3 started clear. -/
theorem C7_witness :
    ∃ v2, dictGet (disable (okBus 0) (enable (okBus 0) pcaDevice [3]).dev [3]).dev.reg_data
        pcaDevice.output_reg_addr = some v2 ∧
      (∀ k : Nat, v2.testBit k = ((0xFF : Nat).testBit k && !decide ((k : Int) ∈ [(3 : Int)]))) ∧
      (v2 = 0xFF ↔ ∀ p ∈ [(3 : Int)], (0xFF : Nat).testBit p.toNat = false) :=
  C7_enable_then_disable (okBus 0) pcaDevice [3] 0xFF 0xFF
    (by decide) (by decide) (by decide) (by decide) (fun _ _ => rfl)

/-- C8: the bulk helpers `enable_all` / `disable_all` / `invert_all` /
`uninvert_all` delegate to the per-pin operation with the full pin set, but
`read_all` drops the decoded mapping on the floor: it performs the identical
bus activity yet returns `None` where `read(0, ..., 7)` returns the
pin-to-boolean mapping. -/
theorem C8_read_all_discards_mapping :
    enable_all (okBus 0x20) pcaDevice = enable (okBus 0x20) pcaDevice (all_pins pcaDevice) ∧
    disable_all (okBus 0x20) pcaDevice = disable (okBus 0x20) pcaDevice (all_pins pcaDevice) ∧
    invert_all (okBus 0x20) pcaDevice = invert (okBus 0x20) pcaDevice (all_pins pcaDevice) ∧
    uninvert_all (okBus 0x20) pcaDevice = uninvert (okBus 0x20) pcaDevice (all_pins pcaDevice) ∧
    (read (okBus 0x20) pcaDevice (all_pins pcaDevice)).out =
      .ok [(0, false), (1, false), (2, false), (3, false), (4, false),
           (5, true), (6, false), (7, false)] ∧
    (read_all (okBus 0x20) pcaDevice).txns =
      (read (okBus 0x20) pcaDevice (all_pins pcaDevice)).txns ∧
    (read_all (okBus 0x20) pcaDevice).dev =
      (read (okBus 0x20) pcaDevice (all_pins pcaDevice)).dev ∧
    (read_all (okBus 0x20) pcaDevice).out = .ok () :=
  ⟨rfl, rfl, rfl, rfl, rfl, rfl, rfl, rfl⟩

/-- Witness for C10: the four empty-pin calls on the PCA9538A defaults each
issue one write of the current shadow value and change nothing. -/
theorem C10_witness :
    enable (okBus 0) pcaDevice [] =
      ⟨[.write pcaDevice.addr pcaDevice.output_reg_addr 0xFF], [], pcaDevice, .ok ()⟩ ∧
    disable (okBus 0) pcaDevice [] =
      ⟨[.write pcaDevice.addr pcaDevice.output_reg_addr 0xFF], [], pcaDevice, .ok ()⟩ ∧
    invert (okBus 0) pcaDevice [] =
      ⟨[.write pcaDevice.addr pcaDevice.polarity_reg_addr 0x00], [], pcaDevice, .ok ()⟩ ∧
    uninvert (okBus 0) pcaDevice [] =
      ⟨[.write pcaDevice.addr pcaDevice.polarity_reg_addr 0x00], [], pcaDevice, .ok ()⟩ :=
  C10_empty_pin_collection (okBus 0) pcaDevice 0xFF 0x00
    (by decide) (by decide) rfl rfl

end GpioExpander
